import Mathlib

/-!
Verification of the photobooth application (src/app.py) against its
natural-language specification.

The embedding models images as lists of rows of pixels.  A uint8 RGB
ndarray is `Arr := List (List Pix)` with `Pix := Nat × Nat × Nat`; a
float ndarray (image.astype(float) / 255.0) is `QArr` over rational
pixels.  A value that may be either grayscale (2-D) or RGB (3-D) is the
inductive `Image`.

External library primitives that the source calls (OpenCV colormap
lookup tables, skimage gamma / sigmoid scalar curves, the Gaussian blur
inside unsharp_mask, and PIL text rendering) are injected through the
`Lib` structure: the source uses them as black boxes, and the claims
under verification depend only on their documented elementwise /
shape-preserving form, which the embedding makes explicit.
-/

set_option synthInstance.maxSize 1024

/-- One 8-bit RGB pixel: three channel samples. -/
abbrev Pix : Type := Nat × Nat × Nat

/-- A 3-channel uint8 raster: a list of rows of pixels. -/
abbrev Arr : Type := List (List Pix)

/-- One float pixel (image.astype(float) / 255.0 world). -/
abbrev QPix : Type := ℚ × ℚ × ℚ

/-- A 3-channel float raster. -/
abbrev QArr : Type := List (List QPix)

/-- The white pixel used by np.ones(...)*255 canvases and frames. -/
def white : Pix := (255, 255, 255)

/-- A raster that is either grayscale (len(shape) == 2) or RGB
(len(shape) == 3), mirroring the dynamic shape test in the source. -/
inductive Image where
  | gray (d : List (List Nat))
  | rgb (d : Arr)
deriving DecidableEq

/-- cv2.cvtColor(·, cv2.COLOR_GRAY2RGB): replicate the gray sample into
all three channels. -/
def gray2rgbArr (d : List (List Nat)) : Arr :=
  d.map (fun row => row.map (fun v => (v, v, v)))

/-- The 3-channel view of an image: grayscale input is converted with
COLOR_GRAY2RGB first, exactly as the first two lines of apply_filter
and add_frame do. -/
def toRGBArr : Image → Arr
  | .gray d => gray2rgbArr d
  | .rgb d => d

/-- image.shape[0] of the embedded image. -/
def imgHeight : Image → Nat
  | .gray d => d.length
  | .rgb d => d.length

/-- image.shape[1] of the embedded image (rows are uniform in any raster
that numpy can represent, so the first row's length is the width). -/
def imgWidth : Image → Nat
  | .gray d => (d.headD []).length
  | .rgb d => (d.headD []).length

/-- arr.shape[1] for a raw 3-channel raster. -/
def arrWidth (a : Arr) : Nat := (a.headD []).length

/-- Pixel accessor arr[i][j] with an out-of-range default. -/
def pixAt (a : Arr) (i j : Nat) : Pix := (a.getD i []).getD j white

/-- Round to nearest and saturate into the uint8 range, the behaviour of
OpenCV's saturate_cast<uchar> applied to an exact rational value
(rounding of halves is modelled as round-half-up). -/
def sat_round_u8 (q : ℚ) : Nat := (min 255 (max 0 (round q))).toNat

/-- np.clip(v, 0, 255) on a uint8 sample (max with 0 is the identity on
Nat). -/
def clip255 (v : Nat) : Nat := min 255 v

/-- np.clip on a whole pixel. -/
def clipPix (p : Pix) : Pix := (clip255 p.1, clip255 p.2.1, clip255 p.2.2)

/-- Truncation toward zero of a rational, the C cast behaviour behind
ndarray.astype(np.uint8). -/
def ratTrunc (q : ℚ) : Int := if 0 ≤ q then Int.floor q else Int.ceil q

/-- (x * 255).astype(np.uint8) on one float sample: scale, truncate
toward zero, wrap modulo 256. -/
def u8_of_q (q : ℚ) : Nat := ((ratTrunc (q * 255)) % 256).toNat

/-- (a * 255).astype(np.uint8) on a float raster. -/
def u8Arr (a : QArr) : Arr :=
  a.map (fun row => row.map (fun p => (u8_of_q p.1, u8_of_q p.2.1, u8_of_q p.2.2)))

/-- image.astype(float) / 255.0 (the img_float binding in apply_filter). -/
def arrToFloat (a : Arr) : QArr :=
  a.map (fun row => row.map (fun p =>
    ((p.1 : ℚ) / 255, (p.2.1 : ℚ) / 255, (p.2.2 : ℚ) / 255)))

/-- Elementwise application of a scalar curve to every channel sample of
a float raster (how skimage exposure.adjust_gamma / adjust_sigmoid act
on an ndarray). -/
def qmapArr (f : ℚ → ℚ) (a : QArr) : QArr :=
  a.map (fun row => row.map (fun p => (f p.1, f p.2.1, f p.2.2)))

/-- The injected external-library primitives.  Each field carries
exactly the interface shape the source relies on; the numeric content
of the curves and tables is opaque to every claim under check. -/
structure Lib where
  /-- the 256-entry BGR lookup table of cv2.COLORMAP_BONE -/
  bone_lut : Nat → Pix
  /-- the 256-entry BGR lookup table of cv2.COLORMAP_COOL -/
  cool_lut : Nat → Pix
  /-- scalar curve of skimage exposure.adjust_gamma: gamma, sample ↦
  sample ** gamma (irrational for gamma = 1.2, hence kept abstract) -/
  gamma_scalar : ℚ → ℚ → ℚ
  /-- scalar curve of skimage exposure.adjust_sigmoid:
  cutoff, gain, sample ↦ 1 / (1 + exp(gain * (cutoff - sample))) -/
  sigmoid_scalar : ℚ → ℚ → ℚ → ℚ
  /-- value at one position of the Gaussian blur (sigma = radius) that
  skimage filters.unsharp_mask computes internally -/
  gauss_at : ℚ → QArr → Nat → Nat → QPix
  /-- the set of canvas positions covered by the PIL date-caption text
  that create_photo_strip draws (font, bbox and centering folded in) -/
  text_mask : Nat → Nat → Bool

/-- cv2.transform with the sepia matrix of app.py lines 29-31 applied to
one uint8 pixel: matrix-multiply the channel vector, then
saturate_cast back to uint8. -/
def sepiaPix (p : Pix) : Pix :=
  let r : ℚ := p.1
  let g : ℚ := p.2.1
  let b : ℚ := p.2.2
  (sat_round_u8 (0.393 * r + 0.769 * g + 0.189 * b),
   sat_round_u8 (0.349 * r + 0.686 * g + 0.168 * b),
   sat_round_u8 (0.272 * r + 0.534 * g + 0.131 * b))

/-- Luma sample of cv2.COLOR_BGR2GRAY (channel weights 0.114, 0.587,
0.299 in storage order), the conversion cv2.applyColorMap performs on a
CV_8UC3 input before the table lookup. -/
def bgr2grayVal (p : Pix) : Nat :=
  sat_round_u8 (0.114 * (p.1 : ℚ) + 0.587 * (p.2.1 : ℚ) + 0.299 * (p.2.2 : ℚ))

/-- cv2.applyColorMap on a 3-channel uint8 raster: convert each pixel to
gray, then look it up in the 256-entry colormap table. -/
def applyColorMap (lut : Nat → Pix) (a : Arr) : Arr :=
  a.map (fun row => row.map (fun p => lut (bgr2grayVal p)))

/-- Luma sample of cv2.COLOR_RGB2GRAY (channel weights 0.299, 0.587,
0.114 in storage order), used by the Black & White mode. -/
def rgb2grayVal (p : Pix) : Nat :=
  sat_round_u8 (0.299 * (p.1 : ℚ) + 0.587 * (p.2.1 : ℚ) + 0.114 * (p.2.2 : ℚ))

/-- cv2.cvtColor(·, cv2.COLOR_RGB2GRAY) on a 3-channel raster. -/
def rgb2grayArr (a : Arr) : List (List Nat) :=
  a.map (fun row => row.map rgb2grayVal)

/-- true when some channel sample of the float raster is negative (the
np.any(image < 0) test inside skimage unsharp_mask). -/
def hasNegPix (a : QArr) : Bool :=
  a.any (fun row => row.any (fun p =>
    decide (p.1 < 0) || decide (p.2.1 < 0) || decide (p.2.2 < 0)))

/-- min hi (max lo x): np.clip on one float sample. -/
def clipQ (lo hi x : ℚ) : ℚ := min hi (max lo x)

/-- skimage filters.unsharp_mask on a float raster:
result = image + (image - gaussian(image, sigma radius)) * amount,
clipped back into the value range ([0,1] for a non-negative input,
[-1,1] otherwise).  The Gaussian blur itself is the injected per-position
primitive gauss_at. -/
def unsharp_mask (gauss_at : ℚ → QArr → Nat → Nat → QPix)
    (radius amount : ℚ) (image : QArr) : QArr :=
  let lo : ℚ := if hasNegPix image then -1 else 0
  image.enum.map (fun yr =>
    yr.2.enum.map (fun xp =>
      let p := xp.2
      let blurred := gauss_at radius image yr.1 xp.1
      (clipQ lo 1 (p.1 + amount * (p.1 - blurred.1)),
       clipQ lo 1 (p.2.1 + amount * (p.2.1 - blurred.2.1)),
       clipQ lo 1 (p.2.2 + amount * (p.2.2 - blurred.2.2)))))

/-- The sidebar enumeration of app.py line 263. -/
def filter_options : List String :=
  ["Original", "Sepia", "Vintage", "Cool", "Summer", "Dramatic"]

/-- apply_filter of app.py lines 20-49: convert a grayscale input to
RGB, then dispatch on the filter name through the if/elif chain,
falling through to the (converted) input for unknown names. -/
def apply_filter (lib : Lib) (image0 : Image) (filter_name : String) : Image :=
  let image := toRGBArr image0
  let img_float := arrToFloat image
  if filter_name = "Original" then
    .rgb image
  else if filter_name = "Sepia" then
    let sepia_img := image.map (fun row => row.map sepiaPix)
    .rgb (sepia_img.map (fun row => row.map clipPix))
  else if filter_name = "Vintage" then
    .rgb (applyColorMap lib.bone_lut image)
  else if filter_name = "Cool" then
    .rgb (applyColorMap lib.cool_lut image)
  else if filter_name = "Summer" then
    let summer := qmapArr (lib.gamma_scalar 1.2) img_float
    let summer2 := qmapArr (lib.sigmoid_scalar 0.5 10) summer
    .rgb (u8Arr summer2)
  else if filter_name = "Dramatic" then
    let dramatic := qmapArr (lib.gamma_scalar 2.0) img_float
    let dramatic2 := unsharp_mask lib.gauss_at 2 2 dramatic
    .rgb (u8Arr dramatic2)
  else
    .rgb image

/-- add_frame of app.py lines 75-82: convert grayscale to RGB, allocate
a white (h + 2w) × (w + 2w) canvas and write the image into its
interior window. -/
def add_frame (image0 : Image) (frame_width : Nat) : Arr :=
  let image := toRGBArr image0
  let h := image.length
  let w := (image.headD []).length
  (List.range (h + 2 * frame_width)).map (fun i =>
    (List.range (w + 2 * frame_width)).map (fun j =>
      if frame_width ≤ i ∧ i < h + frame_width ∧
         frame_width ≤ j ∧ j < w + frame_width then
        (image.getD (i - frame_width) []).getD (j - frame_width) white
      else white))

/-- The per-photo dictionary DeepFace.analyze yields: the only field the
application reads is the emotion-score mapping (insertion-ordered, as a
Python dict is). -/
structure EmotionResult where
  emotion : List (String × ℚ)
deriving DecidableEq

/-- Shape of a successful DeepFace.analyze return value: a bare result
dictionary or a list of per-face results (the isinstance test in
analyze_face handles both). -/
inductive DFResult where
  | single (r : EmotionResult)
  | multi (rs : List EmotionResult)
deriving DecidableEq

/-- Behaviour of one DeepFace.analyze call: either it raises or it
returns a result value. -/
inductive DFOutcome where
  | raises (msg : String)
  | returns (r : DFResult)
deriving DecidableEq

/-- The one uncaught Python exception the embedded handlers can raise:
ValueError from max() applied to an empty sequence. -/
inductive PyErr where
  | valueError
deriving DecidableEq

/-- analyze_face of app.py lines 51-59, with the model call injected as
a function.  Any exception inside the try block (including the
IndexError of result[0] on an empty list) is caught, one st.error is
shown, and none is returned.  The second component counts the
user-visible error messages shown. -/
def analyze_face (deepface : Arr → DFOutcome) (image : Arr) :
    Option EmotionResult × Nat :=
  match deepface image with
  | .raises _ => (none, 1)
  | .returns (.single r) => (some r, 0)
  | .returns (.multi []) => (none, 1)
  | .returns (.multi (r :: _)) => (some r, 0)

/-- Python max(items, key=lambda x: x[1]) over a nonempty list split as
head and tail: fold keeping the current maximum, replacing it only on a
strictly larger key, so the first-encountered maximum wins ties. -/
def pymax_by_snd (x : String × ℚ) (xs : List (String × ℚ)) : String × ℚ :=
  xs.foldl (fun acc y => if acc.2 < y.2 then y else acc) x

/-- max(emotions.items(), key=lambda x: x[1])[0] (app.py lines 123 and
281).  Python max raises ValueError on an empty sequence; that case is
routed through PyErr by the callers, so the value returned here for []
is never observed. -/
def dominant_emotion (emotions : List (String × ℚ)) : String :=
  match emotions with
  | [] => ""
  | x :: xs => (pymax_by_snd x xs).1

/-- numpy slice assignment strip[ys:ye] = photo on the row axis: rows
with index in [ys, ye) are replaced by the corresponding photo row. -/
def sliceAssign (s : Arr) (ys ye : Nat) (photo : Arr) : Arr :=
  s.enum.map (fun yr => if ys ≤ yr.1 ∧ yr.1 < ye then photo.getD (yr.1 - ys) yr.2 else yr.2)

/-- The PIL date caption of app.py lines 150-168: drawing text recolours
the masked canvas positions with the fixed fill (100, 100, 100) and
leaves every other pixel untouched (date string, font selection and
fallback, bbox centering are all inside the injected mask). -/
def drawDate (lib : Lib) (s : Arr) : Arr :=
  s.enum.map (fun yr => yr.2.enum.map (fun xp =>
    if lib.text_mask yr.1 xp.1 then (100, 100, 100) else xp.2))

/-- create_photo_strip of app.py lines 130-170: None on an empty list,
otherwise a white canvas of height n*h + padding*(n-1) + date_height
and the first photo's width, with photo i written at row offset
i*(h + padding) and the date caption drawn at the bottom. -/
def create_photo_strip (lib : Lib) (photos : List Arr) : Option Arr :=
  if photos.isEmpty then none
  else
    let padding := 20
    let photo_height := (photos.headD []).length
    let photo_width := arrWidth (photos.headD [])
    let date_height := 40
    let strip_height := photo_height * photos.length + padding * (photos.length - 1) + date_height
    let strip0 : Arr := List.replicate strip_height (List.replicate photo_width white)
    let strip1 := photos.enum.foldl
      (fun s ip => sliceAssign s (ip.1 * (photo_height + padding))
        (ip.1 * (photo_height + padding) + photo_height) ip.2) strip0
    some (drawDate lib strip1)

/-- One gallery entry of st.session_state.photos_with_emotions: the
processed photo and its dominant-emotion label. -/
structure GalleryEntry where
  photo : Arr
  emotion : String
deriving DecidableEq

/-- The per-session mutable state: the gallery list
photos_with_emotions and the emotion-history list emotion_data. -/
structure SessionState where
  photos_with_emotions : List GalleryEntry
  emotion_data : List (List (String × ℚ))
deriving DecidableEq

/-- update_emotion_data of app.py lines 61-65: append a copy of the
emotion dictionary to st.session_state.emotion_data. -/
def update_emotion_data (s : SessionState) (emotion_dict : List (String × ℚ)) :
    SessionState :=
  { s with emotion_data := s.emotion_data ++ [emotion_dict] }

/-- The external collaborators of one photoshoot action: the library
primitives, the camera widget's value, the classifier's behaviour and
the two sidebar settings. -/
structure ShootEnv where
  lib : Lib
  cap : Option Arr
  deepface : Arr → DFOutcome
  black_white : Bool
  selected_filter : String

deriving instance DecidableEq for Except

/-- Result of one capture_photos call: the session state after its
mutations, the number of user-visible errors shown, and either the
Python return value (photos, analysis_results) — with (None, None)
encoded as (none, none) — or an uncaught exception. -/
structure ShootResult where
  state : SessionState
  errors : Nat
  value : Except PyErr (Option (List Arr) × Option (List EmotionResult))
deriving DecidableEq

/-- capture_photos of app.py lines 92-128.  num_photos and delay are
accepted (defaults 3 and 3) but never read by the body.  With no camera
value it returns (None, None); otherwise it analyzes the single frame
(appending to emotion_data on success), applies Black & White, the
selected filter and the frame, and returns one photo.  The dominant-
emotion status message (line 123) raises ValueError when the emotion
mapping is empty. -/
def capture_photos (env : ShootEnv) (num_photos : Nat) (delay : Nat)
    (black_white : Bool) (selected_filter : String) (s : SessionState) :
    ShootResult :=
  match env.cap with
  | none => ⟨s, 0, .ok (none, none)⟩
  | some cap =>
    let ar := analyze_face env.deepface cap
    let s1 := match ar.1 with
      | some analysis => update_emotion_data s analysis.emotion
      | none => s
    let analysis_results := match ar.1 with
      | some analysis => [analysis]
      | none => []
    let cap1 := if black_white then gray2rgbArr (rgb2grayArr cap) else cap
    let cap2 := apply_filter env.lib (Image.rgb cap1) selected_filter
    let cap3 := add_frame cap2 50
    let photos := [cap3]
    match ar.1 with
    | some analysis =>
      if analysis.emotion.isEmpty then ⟨s1, ar.2, .error .valueError⟩
      else ⟨s1, ar.2, .ok (some photos, some analysis_results)⟩
    | none => ⟨s1, ar.2, .ok (some photos, some analysis_results)⟩

/-- Result of one button handler run: final session state, errors shown,
and whether an exception escaped. -/
structure ActionResult where
  state : SessionState
  errors : Nat
  outcome : Except PyErr Unit
deriving DecidableEq

/-- The gallery loop of app.py lines 279-285: for each zipped
(photo, analysis) pair, compute the dominant emotion (ValueError on an
empty mapping) and append a gallery entry. -/
def gallery_append_loop (s : SessionState) (errs : Nat) :
    List (Arr × EmotionResult) → ActionResult
  | [] => ⟨s, errs, .ok ()⟩
  | (photo, analysis) :: rest =>
    if analysis.emotion.isEmpty then ⟨s, errs, .error .valueError⟩
    else
      gallery_append_loop
        { s with photos_with_emotions :=
            s.photos_with_emotions ++ [⟨photo, dominant_emotion analysis.emotion⟩] }
        errs rest

/-- The Start Photoshoot button handler of app.py lines 274-305: run
capture_photos (num_photos and delay left at their defaults 3 and 3),
and when both returned lists are truthy append one gallery entry per
zipped pair.  The subsequent strip composition, display and download
offer read no session state and are omitted. -/
def main_shoot (env : ShootEnv) (s : SessionState) : ActionResult :=
  let r := capture_photos env 3 3 env.black_white env.selected_filter s
  match r.value with
  | .error e => ⟨r.state, r.errors, .error e⟩
  | .ok (photosOpt, analysesOpt) =>
    match photosOpt, analysesOpt with
    | some photos, some analyses =>
      if !photos.isEmpty && !analyses.isEmpty then
        gallery_append_loop r.state r.errors (photos.zip analyses)
      else ⟨r.state, r.errors, .ok ()⟩
    | _, _ => ⟨r.state, r.errors, .ok ()⟩

/-- The Clear Gallery handler of app.py lines 326-329: reset both
session lists to empty. -/
def clear_gallery (_s : SessionState) : SessionState := ⟨[], []⟩

/-- One user-triggered action of the interface. -/
inductive AppAction where
  | shoot (env : ShootEnv)
  | clear

/-- Session-state transition of one action. -/
def step (s : SessionState) (a : AppAction) : SessionState :=
  match a with
  | .shoot env => (main_shoot env s).state
  | .clear => clear_gallery s

/-- A whole interactive session: fold the actions over the initial empty
state. -/
def runActions (s : SessionState) (acts : List AppAction) : SessionState :=
  acts.foldl step s

/-- The classifier contract the application relies on: every result
dictionary DeepFace produces carries a non-empty emotion-score mapping
(DeepFace always scores its fixed seven labels). -/
def outcomeWF : DFOutcome → Bool
  | .raises _ => true
  | .returns (.single r) => !r.emotion.isEmpty
  | .returns (.multi rs) => rs.all (fun r => !r.emotion.isEmpty)

/-- An environment whose classifier meets the DeepFace contract. -/
def envWF (env : ShootEnv) : Prop :=
  ∀ img : Arr, outcomeWF (env.deepface img) = true

/-- Number of photos a capture_photos run handed back to the caller. -/
def okPhotosCount (r : ShootResult) : Nat :=
  match r.value with
  | .ok (some ps, _) => ps.length
  | _ => 0

/-- A concrete instantiation of the injected library primitives, used to
evaluate the theorems at concrete inputs. -/
def lib0 : Lib :=
  ⟨fun _ => (0, 0, 0), fun _ => (0, 0, 0), fun _ x => x, fun _ _ x => x,
   fun _ _ _ _ => (0, 0, 0), fun _ _ => false⟩

/-- A concrete 1×1 RGB frame. -/
def img1 : Arr := [[(10, 20, 30)]]

/-- A concrete 2×2 RGB image. -/
def img2 : Image := .rgb [[(1, 2, 3), (4, 5, 6)], [(7, 8, 9), (10, 11, 12)]]

/-- A concrete classifier behaviour that always raises. -/
def dfRaise : Arr → DFOutcome := fun _ => .raises "boom"

/-- A concrete classifier result with a non-empty emotion mapping. -/
def er1 : EmotionResult := ⟨[("happy", 9), ("sad", 1)]⟩

/-- A concrete classifier behaviour returning a bare result dictionary. -/
def dfSingle : Arr → DFOutcome := fun _ => .returns (.single er1)

/-- A concrete classifier behaviour returning a one-face result list. -/
def dfMulti : Arr → DFOutcome := fun _ => .returns (.multi [er1])

/-- A concrete shoot environment whose classifier raises (the classifier
failure scenario). -/
def env5 : ShootEnv := ⟨lib0, some img1, dfRaise, false, "Original"⟩

/-- A concrete shoot environment whose classifier succeeds. -/
def envOk : ShootEnv := ⟨lib0, some img1, dfSingle, false, "Original"⟩

/-- The empty initial session state. -/
def initState : SessionState := ⟨[], []⟩

/-- Two concrete 2×1 photos for evaluating the strip claims. -/
def photosW : List Arr := [[[(1, 2, 3)], [(4, 5, 6)]], [[(7, 8, 9)], [(1, 1, 1)]]]

/-- Three concrete 100×100 photos, the scenario of the specification. -/
def photos100 : List Arr :=
  List.replicate 3 (List.replicate 100 (List.replicate 100 white))

/-- A concrete emotion mapping with a tie on the maximal score. -/
def emotionsW : List (String × ℚ) := [("angry", 3), ("happy", 7), ("sad", 7)]

/-- A concrete session state with a non-empty gallery. -/
def stateW : SessionState := ⟨[⟨img1, "happy"⟩, ⟨img1, "sad"⟩], [er1.emotion]⟩

/-! ## Dimension lemmas shared by the filter and framing claims -/

theorem mapmap_length {α β : Type} (g : α → β) (a : List (List α)) :
    (a.map (fun row => row.map g)).length = a.length := by simp

theorem mapmap_headD_length {α β : Type} (g : α → β) (a : List (List α)) :
    ((a.map (fun row => row.map g)).headD []).length = (a.headD []).length := by
  cases a <;> simp

theorem toRGBArr_length (image : Image) : (toRGBArr image).length = imgHeight image := by
  cases image <;> simp [toRGBArr, gray2rgbArr, imgHeight]

theorem toRGBArr_headD_length (image : Image) :
    ((toRGBArr image).headD []).length = imgWidth image := by
  cases image with
  | gray d => cases d <;> simp [toRGBArr, gray2rgbArr, imgWidth]
  | rgb d => simp [toRGBArr, imgWidth]

theorem unsharp_mask_length (g : ℚ → QArr → Nat → Nat → QPix) (radius amount : ℚ)
    (a : QArr) : (unsharp_mask g radius amount a).length = a.length := by
  simp [unsharp_mask]

theorem unsharp_mask_headD_length (g : ℚ → QArr → Nat → Nat → QPix) (radius amount : ℚ)
    (a : QArr) :
    ((unsharp_mask g radius amount a).headD []).length = (a.headD []).length := by
  cases a with
  | nil => rfl
  | cons r t => simp [unsharp_mask, List.enum_cons]

/-- C1: for every image and every filter name in the six-element
enumeration, apply_filter returns an image with the same spatial
dimensions (height and width) as its input, and for the name "Original"
with a 3-channel input it returns the input unchanged. -/
theorem apply_filter_preserves_dims (lib : Lib) (image : Image) (name : String)
    (hname : name ∈ filter_options) :
    imgHeight (apply_filter lib image name) = imgHeight image ∧
    imgWidth (apply_filter lib image name) = imgWidth image ∧
    (∀ d : Arr, image = Image.rgb d → apply_filter lib image "Original" = image) := by
  have hO : ∀ d : Arr, image = Image.rgb d → apply_filter lib image "Original" = image := by
    rintro d rfl
    rfl
  refine ⟨?_, ?_, hO⟩ <;>
  · simp only [filter_options, List.mem_cons, List.not_mem_nil, or_false] at hname
    rcases hname with rfl | rfl | rfl | rfl | rfl | rfl
    · rw [show apply_filter lib image "Original" = Image.rgb (toRGBArr image) from rfl]
      simp only [imgHeight, imgWidth, toRGBArr_length, toRGBArr_headD_length]
    · rw [show apply_filter lib image "Sepia" =
          Image.rgb (((toRGBArr image).map (fun row => row.map sepiaPix)).map
            (fun row => row.map clipPix)) from rfl]
      simp only [imgHeight, imgWidth, mapmap_length, mapmap_headD_length,
        toRGBArr_length, toRGBArr_headD_length]
    · rw [show apply_filter lib image "Vintage" =
          Image.rgb (applyColorMap lib.bone_lut (toRGBArr image)) from rfl]
      simp only [imgHeight, imgWidth, applyColorMap, mapmap_length, mapmap_headD_length,
        toRGBArr_length, toRGBArr_headD_length]
    · rw [show apply_filter lib image "Cool" =
          Image.rgb (applyColorMap lib.cool_lut (toRGBArr image)) from rfl]
      simp only [imgHeight, imgWidth, applyColorMap, mapmap_length, mapmap_headD_length,
        toRGBArr_length, toRGBArr_headD_length]
    · rw [show apply_filter lib image "Summer" =
          Image.rgb (u8Arr (qmapArr (lib.sigmoid_scalar 0.5 10)
            (qmapArr (lib.gamma_scalar 1.2) (arrToFloat (toRGBArr image))))) from rfl]
      simp only [imgHeight, imgWidth, u8Arr, qmapArr, arrToFloat, mapmap_length,
        mapmap_headD_length, toRGBArr_length, toRGBArr_headD_length]
    · rw [show apply_filter lib image "Dramatic" =
          Image.rgb (u8Arr (unsharp_mask lib.gauss_at 2 2
            (qmapArr (lib.gamma_scalar 2.0) (arrToFloat (toRGBArr image))))) from rfl]
      simp only [imgHeight, imgWidth, u8Arr, qmapArr, arrToFloat, mapmap_length,
        mapmap_headD_length, unsharp_mask_length, unsharp_mask_headD_length,
        toRGBArr_length, toRGBArr_headD_length]

/-- Witness for C1 at a concrete library, image and filter name. -/
theorem apply_filter_preserves_dims_witness :
    imgHeight (apply_filter lib0 img2 "Sepia") = imgHeight img2 ∧
    imgWidth (apply_filter lib0 img2 "Sepia") = imgWidth img2 :=
  ⟨(apply_filter_preserves_dims lib0 img2 "Sepia" (by decide)).1,
   (apply_filter_preserves_dims lib0 img2 "Sepia" (by decide)).2.1⟩

/-- C9: apply_filter is total over arbitrary filter-name strings: on a
3-channel image, any name outside the six-element enumeration falls
through every branch and the input is returned unchanged. -/
theorem apply_filter_unknown_name_id (lib : Lib) (d : Arr) (name : String)
    (hname : name ∉ filter_options) :
    apply_filter lib (Image.rgb d) name = Image.rgb d := by
  simp only [filter_options, List.mem_cons, List.not_mem_nil, or_false, not_or] at hname
  obtain ⟨h1, h2, h3, h4, h5, h6⟩ := hname
  simp [apply_filter, toRGBArr, h1, h2, h3, h4, h5, h6]

/-- Witness for C9 at a concrete name outside the enumeration. -/
theorem apply_filter_unknown_name_id_witness :
    apply_filter lib0 (Image.rgb img1) "Grayscale" = Image.rgb img1 :=
  apply_filter_unknown_name_id lib0 img1 "Grayscale" (by decide)

/-- C6: the Sepia filter multiplies each pixel's channel vector by the
fixed 3×3 matrix and clamps, so every output channel sample is at most
255 (the lower bound 0 is inherent: samples are natural numbers). -/
theorem sepia_pixels_in_range (lib : Lib) (image : Image) (row : List Pix) (p : Pix)
    (hrow : row ∈ toRGBArr (apply_filter lib image "Sepia")) (hp : p ∈ row) :
    p.1 ≤ 255 ∧ p.2.1 ≤ 255 ∧ p.2.2 ≤ 255 := by
  rw [show apply_filter lib image "Sepia" =
      Image.rgb (((toRGBArr image).map (fun row => row.map sepiaPix)).map
        (fun row => row.map clipPix)) from rfl] at hrow
  simp only [toRGBArr] at hrow
  rw [List.mem_map] at hrow
  obtain ⟨r, hr, rfl⟩ := hrow
  rw [List.mem_map] at hp
  obtain ⟨q, hq, rfl⟩ := hp
  exact ⟨Nat.min_le_left _ _, Nat.min_le_left _ _, Nat.min_le_left _ _⟩

/-- Witness for C6 at a concrete pixel: on the all-255 input the first
two sepia channels saturate at 255 and the third rounds to 239. -/
theorem sepia_pixels_in_range_witness :
    (((255, 255, 239) : Pix)).1 ≤ 255 ∧ (((255, 255, 239) : Pix)).2.1 ≤ 255 ∧
    (((255, 255, 239) : Pix)).2.2 ≤ 255 :=
  sepia_pixels_in_range lib0 (Image.rgb [[(255, 255, 255)]]) [(255, 255, 239)]
    (255, 255, 239)
    (by
      rw [show apply_filter lib0 (Image.rgb [[(255, 255, 255)]]) "Sepia" =
          Image.rgb ((([[(255, 255, 255)]] : Arr).map (fun row => row.map sepiaPix)).map
            (fun row => row.map clipPix)) from rfl]
      norm_num [toRGBArr, sepiaPix, sat_round_u8, clipPix, clip255, round_eq]
      all_goals decide)
    (by decide)

theorem headD_eq_getD_zero {α : Type} (a : List α) (d : α) : a.headD d = a.getD 0 d := by
  cases a <;> rfl

theorem getD_range_map {α : Type} (n : Nat) (f : Nat → α) (d : α) (i : Nat)
    (h : i < n) : ((List.range n).map f).getD i d = f i := by
  rw [List.getD_eq_getElem?_getD]
  simp [List.getElem?_eq_getElem, h]

/-- C3: add_frame returns an image of dimensions exactly
(h + 2·fw, w + 2·fw); every pixel of the added border band is white,
the interior window reproduces the (RGB-converted) input pixel for
pixel, and a grayscale input is handled by converting it to three
channels first. -/
theorem add_frame_spec (image : Image) (fw : Nat) :
    (add_frame image fw).length = imgHeight image + 2 * fw ∧
    arrWidth (add_frame image fw) = imgWidth image + 2 * fw ∧
    (∀ i j, i < imgHeight image + 2 * fw → j < imgWidth image + 2 * fw →
      (i < fw ∨ imgHeight image + fw ≤ i ∨ j < fw ∨ imgWidth image + fw ≤ j) →
      pixAt (add_frame image fw) i j = white) ∧
    (∀ i j, i < imgHeight image → j < imgWidth image →
      pixAt (add_frame image fw) (fw + i) (fw + j) = pixAt (toRGBArr image) i j) ∧
    (∀ d : List (List Nat),
      add_frame (Image.gray d) fw = add_frame (Image.rgb (gray2rgbArr d)) fw) := by
  have hh := toRGBArr_length image
  have hw := toRGBArr_headD_length image
  refine ⟨?_, ?_, ?_, ?_, fun d => rfl⟩
  · simp [add_frame, toRGBArr_length]
  · simp only [add_frame, arrWidth]
    rw [headD_eq_getD_zero]
    rcases Nat.eq_zero_or_pos ((toRGBArr image).length + 2 * fw) with h0 | hpos
    · have h1 : (toRGBArr image).length = 0 := by omega
      have h2 : fw = 0 := by omega
      have h3 : toRGBArr image = [] := List.eq_nil_of_length_eq_zero h1
      rw [h0, ← hw, h3]
      simp [h2]
    · rw [getD_range_map _ _ _ _ hpos]
      simp [← hw]
  · intro i j hi hj hout
    simp only [add_frame, pixAt]
    have hb1 : i < (toRGBArr image).length + 2 * fw := by omega
    rw [getD_range_map _ _ _ _ hb1]
    have hb2 : j < ((toRGBArr image).headD []).length + 2 * fw := by omega
    rw [getD_range_map _ _ _ _ hb2]
    rw [if_neg (by omega)]
  · intro i j hi hj
    simp only [add_frame, pixAt]
    have hb1 : fw + i < (toRGBArr image).length + 2 * fw := by omega
    rw [getD_range_map _ _ _ _ hb1]
    have hb2 : fw + j < ((toRGBArr image).headD []).length + 2 * fw := by omega
    rw [getD_range_map _ _ _ _ hb2]
    rw [if_pos (by omega)]
    simp [pixAt, Nat.add_sub_cancel_left]

/-- Witness for C3: a border pixel is white and an interior pixel equals
the input pixel, at a concrete image and frame width. -/
theorem add_frame_spec_witness :
    pixAt (add_frame img2 1) 0 0 = white ∧
    pixAt (add_frame img2 1) (1 + 0) (1 + 1) = pixAt (toRGBArr img2) 0 1 :=
  ⟨(add_frame_spec img2 1).2.2.1 0 0 (by decide) (by decide) (Or.inl (by decide)),
   (add_frame_spec img2 1).2.2.2.1 0 1 (by decide) (by decide)⟩

theorem snd_mem_of_mem_enumFrom {α : Type} :
    ∀ (l : List α) (n : Nat) (p : Nat × α), p ∈ l.enumFrom n → p.2 ∈ l := by
  intro l
  induction l with
  | nil => intro n p hp; simp [List.enumFrom] at hp
  | cons a t ih =>
    intro n p hp
    rw [List.enumFrom] at hp
    rcases List.mem_cons.1 hp with h | h
    · rw [h]; exact List.mem_cons_self a t
    · exact List.mem_cons_of_mem a (ih (n + 1) p h)

theorem snd_mem_of_mem_enum {α : Type} (l : List α) (p : Nat × α)
    (h : p ∈ l.enum) : p.2 ∈ l :=
  snd_mem_of_mem_enumFrom l 0 p h

theorem getD_mem_or_default {α : Type} (l : List α) (k : Nat) (d : α) :
    l.getD k d ∈ l ∨ l.getD k d = d := by
  by_cases h : k < l.length
  · left
    rw [List.getD_eq_getElem?_getD, List.getElem?_eq_getElem h]
    exact List.getElem_mem h
  · right
    rw [List.getD_eq_getElem?_getD, List.getElem?_eq_none (Nat.le_of_not_lt h)]
    rfl

theorem sliceAssign_length (s : Arr) (ys ye : Nat) (p : Arr) :
    (sliceAssign s ys ye p).length = s.length := by
  simp [sliceAssign]

theorem mem_sliceAssign (s : Arr) (ys ye : Nat) (p : Arr) (r : List Pix)
    (hr : r ∈ sliceAssign s ys ye p) : r ∈ s ∨ r ∈ p := by
  simp only [sliceAssign, List.mem_map] at hr
  obtain ⟨yr, hyr, rfl⟩ := hr
  have hsnd : yr.2 ∈ s := snd_mem_of_mem_enum s yr hyr
  by_cases hc : ys ≤ yr.1 ∧ yr.1 < ye
  · rw [if_pos hc]
    rcases getD_mem_or_default p (yr.1 - ys) yr.2 with h | h
    · exact Or.inr h
    · rw [h]; exact Or.inl hsnd
  · rw [if_neg hc]; exact Or.inl hsnd

theorem foldl_sliceAssign_length (f g : Nat × Arr → Nat) :
    ∀ (ps : List (Nat × Arr)) (acc : Arr),
      (ps.foldl (fun s ip => sliceAssign s (f ip) (g ip) ip.2) acc).length = acc.length := by
  intro ps
  induction ps with
  | nil => intro acc; rfl
  | cons ip t ih =>
    intro acc
    rw [List.foldl_cons, ih, sliceAssign_length]

theorem foldl_sliceAssign_rows (f g : Nat × Arr → Nat) (w : Nat) :
    ∀ (ps : List (Nat × Arr)) (acc : Arr),
      (∀ r ∈ acc, r.length = w) → (∀ ip ∈ ps, ∀ r ∈ ip.2, r.length = w) →
      ∀ r ∈ ps.foldl (fun s ip => sliceAssign s (f ip) (g ip) ip.2) acc, r.length = w := by
  intro ps
  induction ps with
  | nil => intro acc hacc _ r hr; exact hacc r hr
  | cons ip t ih =>
    intro acc hacc hps r hr
    rw [List.foldl_cons] at hr
    refine ih _ ?_ (fun q hq => hps q (List.mem_cons_of_mem ip hq)) r hr
    intro q hq
    rcases mem_sliceAssign _ _ _ _ _ hq with h | h
    · exact hacc q h
    · exact hps ip (List.mem_cons_self ip t) q h

theorem drawDate_length (lib : Lib) (s : Arr) : (drawDate lib s).length = s.length := by
  simp [drawDate]

theorem drawDate_rows (lib : Lib) (s : Arr) (w : Nat) (h : ∀ r ∈ s, r.length = w) :
    ∀ r ∈ drawDate lib s, r.length = w := by
  intro r hr
  simp only [drawDate, List.mem_map] at hr
  obtain ⟨yr, hyr, rfl⟩ := hr
  have hsnd : yr.2 ∈ s := snd_mem_of_mem_enum s yr hyr
  simp [h yr.2 hsnd]

theorem arrWidth_of_rows (s : Arr) (w : Nat) (hne : s ≠ [])
    (h : ∀ r ∈ s, r.length = w) : arrWidth s = w := by
  cases s with
  | nil => exact absurd rfl hne
  | cons r t => exact h r (List.mem_cons_self r t)

/-- C2: create_photo_strip returns none on the empty list; on a
non-empty list of n photos of uniform positive height h and width w it
returns a strip of height n·h + 20·(n-1) + 40 whose every row has
length w; in particular three 100×100 photos give a 380×100 strip. -/
theorem create_photo_strip_dims (lib : Lib) :
    create_photo_strip lib [] = none ∧
    (∀ (photos : List Arr) (h w : Nat), photos ≠ [] → 0 < h →
      (∀ p ∈ photos, p.length = h ∧ ∀ r ∈ p, r.length = w) →
      ∃ s, create_photo_strip lib photos = some s ∧
        s.length = photos.length * h + 20 * (photos.length - 1) + 40 ∧
        arrWidth s = w ∧ ∀ r ∈ s, r.length = w) ∧
    (∀ photos : List Arr, photos.length = 3 →
      (∀ p ∈ photos, p.length = 100 ∧ ∀ r ∈ p, r.length = 100) →
      ∃ s, create_photo_strip lib photos = some s ∧ s.length = 380 ∧ arrWidth s = 100) := by
  have hmain : ∀ (photos : List Arr) (h w : Nat), photos ≠ [] → 0 < h →
      (∀ p ∈ photos, p.length = h ∧ ∀ r ∈ p, r.length = w) →
      ∃ s, create_photo_strip lib photos = some s ∧
        s.length = photos.length * h + 20 * (photos.length - 1) + 40 ∧
        arrWidth s = w ∧ ∀ r ∈ s, r.length = w := by
    intro photos h w hne hpos huni
    obtain ⟨p0, rest, rfl⟩ := List.exists_cons_of_ne_nil hne
    have hp0 := huni p0 (List.mem_cons_self p0 rest)
    have hph : ((p0 :: rest).headD []).length = h := hp0.1
    have hpw : arrWidth ((p0 :: rest).headD []) = w := by
      have : p0 ≠ [] := by
        intro hnil
        rw [hnil] at hp0
        simp at hp0
        omega
      exact arrWidth_of_rows p0 w this hp0.2
    simp only [create_photo_strip, List.isEmpty_cons, Bool.false_eq_true, if_false]
    set n := (p0 :: rest).length with hn
    set H := ((p0 :: rest).headD []).length with hH
    set W := arrWidth ((p0 :: rest).headD []) with hW
    set strip0 : Arr := List.replicate (H * n + 20 * (n - 1) + 40) (List.replicate W white)
      with hstrip0
    set strip1 := (p0 :: rest).enum.foldl
      (fun s ip => sliceAssign s (ip.1 * (H + 20)) (ip.1 * (H + 20) + H) ip.2) strip0
      with hstrip1
    refine ⟨drawDate lib strip1, rfl, ?_, ?_, ?_⟩
    · rw [drawDate_length, hstrip1,
        foldl_sliceAssign_length (fun ip => ip.1 * (H + 20)) (fun ip => ip.1 * (H + 20) + H),
        hstrip0, List.length_replicate, hph]
      ring
    · have hrows : ∀ r ∈ drawDate lib strip1, r.length = w := by
        refine drawDate_rows lib strip1 w ?_
        refine foldl_sliceAssign_rows _ _ w _ strip0 ?_ ?_
        · intro r hr
          rw [List.eq_of_mem_replicate hr, List.length_replicate]
          exact hpw
        · intro ip hip r hr
          exact (huni ip.2 (snd_mem_of_mem_enum _ ip hip)).2 r hr
      refine arrWidth_of_rows _ w ?_ hrows
      refine List.ne_nil_of_length_pos ?_
      rw [drawDate_length, hstrip1,
        foldl_sliceAssign_length (fun ip => ip.1 * (H + 20)) (fun ip => ip.1 * (H + 20) + H),
        hstrip0, List.length_replicate]
      omega
    · refine drawDate_rows lib strip1 w ?_
      refine foldl_sliceAssign_rows _ _ w _ strip0 ?_ ?_
      · intro r hr
        rw [List.eq_of_mem_replicate hr, List.length_replicate]
        exact hpw
      · intro ip hip r hr
        exact (huni ip.2 (snd_mem_of_mem_enum _ ip hip)).2 r hr
  refine ⟨rfl, hmain, ?_⟩
  intro photos hlen huni
  have hne : photos ≠ [] := by
    intro hnil
    rw [hnil] at hlen
    simp at hlen
  obtain ⟨s, hs, hslen, hsw, _⟩ := hmain photos 100 100 hne (by norm_num) huni
  refine ⟨s, hs, ?_, hsw⟩
  rw [hslen, hlen]

/-- Witness for C2 at concrete photo lists. -/
theorem create_photo_strip_dims_witness :
    create_photo_strip lib0 [] = none ∧
    (∃ s, create_photo_strip lib0 photosW = some s ∧
      s.length = photosW.length * 2 + 20 * (photosW.length - 1) + 40 ∧
      arrWidth s = 1 ∧ ∀ r ∈ s, r.length = 1) ∧
    (∃ s, create_photo_strip lib0 photos100 = some s ∧ s.length = 380 ∧ arrWidth s = 100) :=
  ⟨(create_photo_strip_dims lib0).1,
   (create_photo_strip_dims lib0).2.1 photosW 2 1 (by decide) (by decide) (by decide),
   (create_photo_strip_dims lib0).2.2 photos100 (by decide) (by decide)⟩

theorem pymax_spec (x : String × ℚ) (xs : List (String × ℚ)) :
    (∀ y ∈ xs, y.2 ≤ (pymax_by_snd x xs).2) ∧ x.2 ≤ (pymax_by_snd x xs).2 ∧
    (pymax_by_snd x xs = x ∨
      ∃ i, ∃ hi : i < xs.length, pymax_by_snd x xs = xs.get ⟨i, hi⟩ ∧
        x.2 < (pymax_by_snd x xs).2 ∧
        ∀ j, ∀ hj : j < i, (xs.get ⟨j, Nat.lt_trans hj hi⟩).2 < (pymax_by_snd x xs).2) := by
  induction xs generalizing x with
  | nil => exact ⟨by simp, le_refl _, Or.inl rfl⟩
  | cons y t ih =>
    have hstep : pymax_by_snd x (y :: t) =
        pymax_by_snd (if x.2 < y.2 then y else x) t := rfl
    by_cases hxy : x.2 < y.2
    · rw [if_pos hxy] at hstep
      rw [hstep]
      obtain ⟨h1, h2, h3⟩ := ih y
      refine ⟨?_, ?_, ?_⟩
      · intro z hz
        rcases List.mem_cons.1 hz with rfl | hz
        · exact h2
        · exact h1 z hz
      · exact le_of_lt (lt_of_lt_of_le hxy h2)
      · rcases h3 with hm | ⟨i, hi, hmi, hlt, hfirst⟩
        · refine Or.inr ⟨0, Nat.succ_pos t.length, ?_, ?_, ?_⟩
          · exact hm
          · rw [hm]; exact hxy
          · intro j hj; exact absurd hj (Nat.not_lt_zero j)
        · refine Or.inr ⟨i + 1, Nat.succ_lt_succ hi, hmi, lt_trans hxy hlt, ?_⟩
          intro j hj
          cases j with
          | zero => exact hlt
          | succ k => exact hfirst k (Nat.lt_of_succ_lt_succ hj)
    · rw [if_neg hxy] at hstep
      rw [hstep]
      have hyx : y.2 ≤ x.2 := le_of_not_lt hxy
      obtain ⟨h1, h2, h3⟩ := ih x
      refine ⟨?_, h2, ?_⟩
      · intro z hz
        rcases List.mem_cons.1 hz with rfl | hz
        · exact le_trans hyx h2
        · exact h1 z hz
      · rcases h3 with hm | ⟨i, hi, hmi, hlt, hfirst⟩
        · exact Or.inl hm
        · refine Or.inr ⟨i + 1, Nat.succ_lt_succ hi, hmi, hlt, ?_⟩
          intro j hj
          cases j with
          | zero => exact lt_of_le_of_lt hyx hlt
          | succ k => exact hfirst k (Nat.lt_of_succ_lt_succ hj)

/-- C7: the dominant emotion is the label of the entry with the maximal
score, ties broken in favour of the first-encountered entry in the
mapping's iteration order: some index i carries the dominant label, its
score bounds every score, and every earlier score is strictly below it. -/
theorem dominant_emotion_first_max (l : List (String × ℚ)) (hne : l ≠ []) :
    ∃ i, ∃ hi : i < l.length,
      (l.get ⟨i, hi⟩).1 = dominant_emotion l ∧
      (∀ j, ∀ hj : j < l.length, (l.get ⟨j, hj⟩).2 ≤ (l.get ⟨i, hi⟩).2) ∧
      (∀ j, ∀ hj : j < i, (l.get ⟨j, Nat.lt_trans hj hi⟩).2 < (l.get ⟨i, hi⟩).2) := by
  obtain ⟨x, xs, rfl⟩ := List.exists_cons_of_ne_nil hne
  obtain ⟨h1, h2, h3⟩ := pymax_spec x xs
  rcases h3 with hm | ⟨i, hi, hmi, hlt, hfirst⟩
  · refine ⟨0, Nat.succ_pos xs.length, ?_, ?_, ?_⟩
    · show x.1 = dominant_emotion (x :: xs)
      simp only [dominant_emotion]
      rw [hm]
    · intro j hj
      cases j with
      | zero => exact le_refl _
      | succ k =>
        show (xs.get ⟨k, Nat.lt_of_succ_lt_succ hj⟩).2 ≤ x.2
        rw [← hm]
        exact h1 _ (xs.get_mem _ _)
    · intro j hj
      exact absurd hj (Nat.not_lt_zero j)
  · refine ⟨i + 1, Nat.succ_lt_succ hi, ?_, ?_, ?_⟩
    · show (xs.get ⟨i, hi⟩).1 = dominant_emotion (x :: xs)
      simp only [dominant_emotion]
      rw [← hmi]
    · intro j hj
      show ((x :: xs).get ⟨j, hj⟩).2 ≤ (xs.get ⟨i, hi⟩).2
      rw [← hmi]
      cases j with
      | zero => exact h2
      | succ k => exact h1 _ (xs.get_mem _ _)
    · intro j hj
      show ((x :: xs).get ⟨j, Nat.lt_trans hj (Nat.succ_lt_succ hi)⟩).2 < (xs.get ⟨i, hi⟩).2
      rw [← hmi]
      cases j with
      | zero => exact hlt
      | succ k => exact hfirst k (Nat.lt_of_succ_lt_succ hj)

/-- Witness for C7 at a concrete tied mapping: happy and sad both score
7, and happy (first-encountered) wins. -/
theorem dominant_emotion_first_max_witness :
    ∃ i, ∃ hi : i < emotionsW.length,
      (emotionsW.get ⟨i, hi⟩).1 = dominant_emotion emotionsW ∧
      (∀ j, ∀ hj : j < emotionsW.length,
        (emotionsW.get ⟨j, hj⟩).2 ≤ (emotionsW.get ⟨i, hi⟩).2) ∧
      (∀ j, ∀ hj : j < i,
        (emotionsW.get ⟨j, Nat.lt_trans hj hi⟩).2 < (emotionsW.get ⟨i, hi⟩).2) :=
  dominant_emotion_first_max emotionsW (by simp [emotionsW])

theorem shoot_step_lengths (env : ShootEnv) (s : SessionState) (hwf : envWF env) :
    ∃ k ≤ 1,
      (step s (.shoot env)).photos_with_emotions.length =
        s.photos_with_emotions.length + k ∧
      (step s (.shoot env)).emotion_data.length = s.emotion_data.length + k := by
  cases hc : env.cap with
  | none =>
    refine ⟨0, by omega, ?_, ?_⟩ <;>
      simp [step, main_shoot, capture_photos, hc]
  | some cap =>
    have hwf2 := hwf cap
    cases hdf : env.deepface cap with
    | raises m =>
      refine ⟨0, by omega, ?_, ?_⟩ <;>
        simp [step, main_shoot, capture_photos, analyze_face, hc, hdf]
    | returns r =>
      cases r with
      | single a =>
        have hne : a.emotion.isEmpty = false := by
          rw [hdf] at hwf2
          simp only [outcomeWF] at hwf2
          simpa using hwf2
        refine ⟨1, le_refl 1, ?_, ?_⟩ <;>
          simp [step, main_shoot, capture_photos, analyze_face, hc, hdf, hne,
            gallery_append_loop, update_emotion_data]
      | multi rs =>
        cases rs with
        | nil =>
          refine ⟨0, by omega, ?_, ?_⟩ <;>
            simp [step, main_shoot, capture_photos, analyze_face, hc, hdf]
        | cons a t =>
          have hne : a.emotion.isEmpty = false := by
            rw [hdf] at hwf2
            simp only [outcomeWF, List.all_cons, Bool.and_eq_true] at hwf2
            simpa using hwf2.1
          refine ⟨1, le_refl 1, ?_, ?_⟩ <;>
            simp [step, main_shoot, capture_photos, analyze_face, hc, hdf, hne,
              gallery_append_loop, update_emotion_data]

/-- C4: the gallery list and the emotion-history list stay in lockstep.
A photoshoot action appends to both together or to neither (for any
classifier meeting the DeepFace contract), the clear action empties
both atomically regardless of prior length, and hence in every state
reachable from the empty session the two lists have equal length. -/
theorem session_lists_invariant :
    (∀ (env : ShootEnv) (s : SessionState), envWF env →
      ∃ k ≤ 1,
        (step s (.shoot env)).photos_with_emotions.length =
          s.photos_with_emotions.length + k ∧
        (step s (.shoot env)).emotion_data.length = s.emotion_data.length + k) ∧
    (∀ s : SessionState, (step s .clear).photos_with_emotions.length = 0 ∧
      (step s .clear).emotion_data.length = 0) ∧
    (∀ acts : List AppAction, (∀ env, AppAction.shoot env ∈ acts → envWF env) →
      (runActions initState acts).photos_with_emotions.length =
        (runActions initState acts).emotion_data.length) := by
  have hrun : ∀ (acts : List AppAction) (s : SessionState),
      s.photos_with_emotions.length = s.emotion_data.length →
      (∀ env, AppAction.shoot env ∈ acts → envWF env) →
      (runActions s acts).photos_with_emotions.length =
        (runActions s acts).emotion_data.length := by
    intro acts
    induction acts with
    | nil => intro s hs _; exact hs
    | cons a t ih =>
      intro s hs hwf
      show (runActions (step s a) t).photos_with_emotions.length =
        (runActions (step s a) t).emotion_data.length
      refine ih (step s a) ?_ (fun env he => hwf env (List.mem_cons_of_mem a he))
      cases a with
      | clear => simp [step, clear_gallery]
      | shoot env =>
        obtain ⟨k, _, h1, h2⟩ :=
          shoot_step_lengths env s (hwf env (List.mem_cons_self _ _))
        omega
  exact ⟨fun env s hwf => shoot_step_lengths env s hwf,
    fun s => ⟨rfl, rfl⟩,
    fun acts hwf => hrun acts initState rfl hwf⟩

/-- Witness for C4 at a concrete environment, state and action trace. -/
theorem session_lists_invariant_witness :
    (∃ k ≤ 1,
      (step initState (.shoot envOk)).photos_with_emotions.length =
        initState.photos_with_emotions.length + k ∧
      (step initState (.shoot envOk)).emotion_data.length =
        initState.emotion_data.length + k) ∧
    ((step stateW .clear).photos_with_emotions.length = 0 ∧
      (step stateW .clear).emotion_data.length = 0) ∧
    (runActions initState [.shoot envOk, .clear, .shoot envOk]).photos_with_emotions.length =
      (runActions initState [.shoot envOk, .clear, .shoot envOk]).emotion_data.length :=
  ⟨session_lists_invariant.1 envOk initState (fun _ => rfl),
   session_lists_invariant.2.1 stateW,
   session_lists_invariant.2.2 [.shoot envOk, .clear, .shoot envOk]
     (by
       intro env he
       simp only [List.mem_cons, List.not_mem_nil, or_false] at he
       rcases he with he | he | he
       · cases he; exact fun _ => rfl
       · exact absurd he (by simp)
       · cases he; exact fun _ => rfl)⟩

/-- C5 (evaluation at the failing input): main's shoot handler leaves
num_photos and delay at their defaults of 3, yet capture_photos hands
back exactly one photo; when the classifier raises on that photo the
error is shown exactly once, no exception escapes the handler, and the
gallery receives zero entries — not the two entries the specification's
3-photo scenario expects, because a 3-photo shoot never happens. -/
theorem single_photo_shoot_classifier_failure :
    okPhotosCount (capture_photos env5 3 3 false "Original" initState) = 1 ∧
    (capture_photos env5 3 3 false "Original" initState).errors = 1 ∧
    main_shoot env5 initState = ⟨initState, 1, .ok ()⟩ :=
  ⟨rfl, rfl, rfl⟩

/-- C8: analyze_face either returns the classifier's result dictionary
or none, and never propagates an exception: a raising model call yields
none with one user-visible error shown; a bare result dictionary is
returned as is; a result list yields its first element. -/
theorem analyze_face_contract (df : Arr → DFOutcome) (image : Arr) :
    (∀ msg, df image = .raises msg → analyze_face df image = (none, 1)) ∧
    (∀ r, df image = .returns (.single r) → analyze_face df image = (some r, 0)) ∧
    (∀ r rs, df image = .returns (.multi (r :: rs)) →
      analyze_face df image = (some r, 0)) := by
  refine ⟨?_, ?_, ?_⟩
  · intro msg h; simp [analyze_face, h]
  · intro r h; simp [analyze_face, h]
  · intro r rs h; simp [analyze_face, h]

/-- Witness for C8 at the three concrete classifier behaviours. -/
theorem analyze_face_contract_witness :
    analyze_face dfRaise img1 = (none, 1) ∧
    analyze_face dfSingle img1 = (some er1, 0) ∧
    analyze_face dfMulti img1 = (some er1, 0) :=
  ⟨(analyze_face_contract dfRaise img1).1 "boom" rfl,
   (analyze_face_contract dfSingle img1).2.1 er1 rfl,
   (analyze_face_contract dfMulti img1).2.2 er1 [] rfl⟩

/-- C10: capture_photos never reads its num_photos and delay
parameters — two calls differing only in them return identical results
for the same camera input, Black & White flag and filter — and a call
hands back at most one photo. -/
theorem capture_photos_ignores_num_and_delay (env : ShootEnv) (n d n2 d2 : Nat)
    (bw : Bool) (f : String) (s : SessionState) :
    capture_photos env n d bw f s = capture_photos env n2 d2 bw f s ∧
    okPhotosCount (capture_photos env n d bw f s) ≤ 1 := by
  refine ⟨rfl, ?_⟩
  cases hc : env.cap with
  | none => simp [capture_photos, okPhotosCount, hc]
  | some cap =>
    cases hdf : env.deepface cap with
    | raises m => simp [capture_photos, analyze_face, okPhotosCount, hc, hdf]
    | returns r =>
      cases r with
      | single a =>
        by_cases he : a.emotion.isEmpty <;>
          simp [capture_photos, analyze_face, okPhotosCount, hc, hdf, he]
      | multi rs =>
        cases rs with
        | nil => simp [capture_photos, analyze_face, okPhotosCount, hc, hdf]
        | cons a t =>
          by_cases he : a.emotion.isEmpty <;>
            simp [capture_photos, analyze_face, okPhotosCount, hc, hdf, he]
